import Mathlib

/-!
Verification of the youtube-monitor pipeline (src/src of the repository).

The Python sources are shallowly embedded: pure string/record manipulation is
translated function-by-function; calls to external systems (YouTube Data API,
the transcript library, yt-dlp, the DownSub scraper, the Gemini model, SMTP)
are modelled by explicit outcome environments that are passed in as data.
Python `while` loops and scans that consume their input are embedded with a
fuel argument that provably suffices on every input.
-/

set_option autoImplicit false

namespace YTMon

/-! ## Data model (src/src/main.py, src/src/data_store.py) -/

/-- A video dictionary as produced by `YouTubeClient.get_latest_videos`
(keys `id`, `title`, `channel_title`, `duration`, `view_count`,
`published_at`, `url`). -/
structure Video where
  id : String
  title : String
  channelTitle : String
  duration : String
  viewCount : Nat
  publishedAt : String
  url : String
deriving DecidableEq

/-- The `video_info` dictionary received by `DataStore.mark_video_processed`.
The source reads every field with `dict.get(key, default)`, so each field is
optional here and the defaults are applied where the source applies them. -/
structure VideoInfo where
  title : Option String
  url : Option String
  channelTitle : Option String
  publishedAt : Option String
  duration : Option String
  viewCount : Option Nat
deriving DecidableEq

/-- A processed-video record as built by `DataStore.mark_video_processed`
(src/src/data_store.py lines 52-63). -/
structure Record where
  videoId : String
  title : String
  url : String
  channelTitle : String
  publishedAt : String
  processedAt : String
  summary : String
  emailSent : Bool
  duration : String
  viewCount : Nat
deriving DecidableEq

/-- Python string slicing `s[:n]`: the first `n` characters. -/
def pySlice (s : String) (n : Nat) : String := String.mk (s.data.take n)

/-- The record literal of `mark_video_processed`; `now` stands for
`datetime.now().isoformat()`. -/
def mkProcessedRecord (videoId : String) (vi : VideoInfo) (summary : String)
    (emailSent : Bool) (now : String) : Record where
  videoId := videoId
  title := vi.title.getD "Unknown"
  url := vi.url.getD ""
  channelTitle := vi.channelTitle.getD "Unknown"
  publishedAt := vi.publishedAt.getD ""
  processedAt := now
  summary := pySlice summary 1000
  emailSent := emailSent
  duration := vi.duration.getD "Unknown"
  viewCount := vi.viewCount.getD 0

/-- The JSON document `processed_videos.json`: a dictionary from channel id to
the channel's list of processed records.  A Python dict has unique keys; the
operations below touch only the first entry with a given key, which coincides
with dict behaviour. -/
abbrev Store := List (String × List Record)

/-- Embedding of `all_videos.get(channel_id, [])`. -/
def loadChannel (s : Store) (ch : String) : List Record :=
  ((s.find? (fun p => p.1 = ch)).map Prod.snd).getD []

/-- Replace the value of the first entry with key `ch`. -/
def setFirst : Store → String → List Record → Store
  | [], _, _ => []
  | p :: rest, ch, l => if p.1 = ch then (ch, l) :: rest else p :: setFirst rest ch l

/-- Embedding of `DataStore.mark_video_processed` (src/src/data_store.py lines 41-70):
load the document, create the channel's list if missing, append the new
record, save. -/
def markVideoProcessed (s : Store) (ch vid : String) (vi : VideoInfo)
    (summary : String) (emailSent : Bool) (now : String) : Store :=
  let r := mkProcessedRecord vid vi summary emailSent now
  let withCh := if s.any (fun p => p.1 = ch) then s else s ++ [(ch, [])]
  setFirst withCh ch (loadChannel withCh ch ++ [r])

/-- The `video_info` dict with every key absent (defaults apply). -/
def viNone : VideoInfo := ⟨none, none, none, none, none, none⟩

/-- Marking the same video id twice in the same channel. -/
def dupStore : Store :=
  markVideoProcessed (markVideoProcessed [] "c" "v" viNone "" false "t1")
    "c" "v" viNone "" false "t2"

/-- Embedding of `get_processed_videos`: the channel's list sorted by `processed_at`
descending (src/src/data_store.py lines 31-39); `sortByKeyDesc` is Python's
stable `list.sort(key=..., reverse=True)` as an insertion sort. -/
def insertDesc (key : Record → String) (r : Record) : List Record → List Record
  | [] => [r]
  | x :: xs => if key x < key r then r :: x :: xs else x :: insertDesc key r xs

def sortByKeyDesc (key : Record → String) : List Record → List Record
  | [] => []
  | x :: xs => insertDesc key x (sortByKeyDesc key xs)

def getProcessedVideos (s : Store) (ch : String) : List Record :=
  sortByKeyDesc Record.processedAt (loadChannel s ch)

/-! ## Transcript acquisition (src/src/main.py lines 218-250,
src/src/transcript_fetcher.py) -/

/-- The three transcript providers named by the spec. -/
inductive Provider | downsub | api | ytdlp
deriving DecidableEq

/-- Outcome of the `YouTubeTranscriptApi` call for one video, as distinguished
by `TranscriptFetcher.fetch_transcript` (lines 44-124): a transcript found and
fetched (already cleaned by `_process_transcript_data`), no transcript object
obtained, or one of the caught exception classes. -/
inductive ApiOutcome
  | found (text lang : String)
  | noneFound
  | disabled
  | unavailable
  | tooMany
  | raised
deriving DecidableEq

/-- Responses of the external transcript sources for one video. -/
structure FetchEnv where
  /-- `DownSubFetcher.fetch_transcript`: `none` covers both a `(None, None)`
  return and a raised exception, which `process_channel` catches. -/
  downsub : Option (String × String)
  api : ApiOutcome
  /-- `TranscriptFetcher._fetch_with_ytdlp`: `none` covers failure and
  raised-and-caught exceptions. -/
  ytdlp : Option (String × String)
deriving DecidableEq

/-- Python name resolution (LEGB without an enclosing function scope, which
`process_channel` does not have): a name lookup either resolves, or raises
`NameError` with Python's message.  Returns the error message, `none` when
the name resolves. -/
def pyLookup (scope : List String) (name : String) : Option String :=
  if name ∈ scope then none else some ("name '" ++ name ++ "' is not defined")

/-- Every name visible inside `process_channel` (src/src/main.py lines
164-339): its parameters, the locals it assigns, the module-level names of
main.py (its imports bind only the imported attribute, so `from
downsub_fetcher import DownSubFetcher` binds `DownSubFetcher`, not
`downsub_fetcher`), and the builtins the function touches.  `config` and
`downsub_fetcher` are locals of `main` (lines 35-46, 60) and are NOT here:
`process_channel` is a module-level function, not nested in `main`. -/
def processChannelScope : List String :=
  [ -- parameters (line 164-166)
   "channel_id", "youtube_client", "transcript_fetcher", "ai_summarizer",
   "email_sender", "data_store", "recipient_email", "get_latest_only",
   -- locals assigned in the body
   "result", "channel_info", "latest_videos", "videos_to_process",
   "processed_videos", "processed_video_ids", "video", "transcript",
   "language", "transcript_source", "basic_summary", "email_sent",
   "summary", "source_note",
   -- module-level names of main.py
   "os", "sys", "json", "logging", "datetime", "timezone", "Path",
   "YouTubeClient", "TranscriptFetcher", "DownSubFetcher", "AISummarizer",
   "EmailSender", "DataStore", "logger", "main", "process_channel",
   "test_components",
   -- builtins referenced by the function
   "len", "str", "set", "Exception"]

/-! ## Python string primitives

Core `String.replace` and `String.trim` do not reduce in the kernel, so the
Python string operations used by the sources are embedded directly on
character lists. -/

/-- Python `str.split()` / `str.strip()` whitespace (the ASCII part). -/
def isPySpace (c : Char) : Bool :=
  c == ' ' || c == '\t' || c == '\n' || c == '\r' || c == '\x0b' || c == '\x0c'

def pyStripL (l : List Char) : List Char :=
  ((l.dropWhile isPySpace).reverse.dropWhile isPySpace).reverse

/-- Python `str.strip()`. -/
def pyStrip (s : String) : String := String.mk (pyStripL s.data)

/-! ## Per-video processing (src/src/main.py lines 215-337) -/

/-- The observable actions the per-video loop body could perform, in program
order: provider attempts, `data_store.save_transcript`, the
`ai_summarizer.generate_summary` call, the notification email with its body
and outcome, and `data_store.mark_video_processed` with the summary and
email-sent flag it is given. -/
inductive Ev
  | fetchAttempt (p : Provider)
  | saveTranscript (text lang : String)
  | genSummary
  | sendEmail (body : String) (ok : Bool)
  | mark (videoId : String) (summary : String) (emailSent : Bool)
deriving DecidableEq

/-- What the external world would answer while processing one video: the
transcript sources, the `generate_summary` result (`none` = falsy), and
whether `send_video_notification` would return `True`.  The loop body never
reaches a call to any of them (see `processVideoReal`), but the claims
quantify over these answers. -/
structure VideoEnv where
  fetch : FetchEnv
  aiSummary : Option String
  emailOk : Bool
deriving DecidableEq

/-- The body of the `for video in videos_to_process` loop (main.py lines
215-337) as executed.  Lines 216-220 log and bind `transcript`, `language`
and `transcript_source` (no observable action).  Line 222, the first
statement that evaluates a free name, is `if config['use_downsub']:` —
`config` is not in `processChannelScope`, so the lookup raises `NameError`
and none of the remaining statements of the body (lines 223-337: provider
calls, transcript save, summary, email, mark, count) runs.  The result is
the events performed (none), the count increment (0) and the raised
exception's message.  The `venv` argument (what the providers, model and
SMTP would have answered) is never consulted.  The `none` lookup branch is
unreachable — the claim theorems prove the lookup fails — and models
nothing. -/
def processVideoReal (_venv : VideoEnv) (_v : Video) : List Ev × Nat × Option String :=
  match pyLookup processChannelScope "config" with
  | some msg => ([], 0, some msg)
  | none => ([], 0, none)

/-- The `for video in videos_to_process` loop: a raised exception aborts the
loop (and propagates out of `process_channel`); otherwise the iteration's
events and count accumulate. -/
def runVideoLoop (venvOf : Video → VideoEnv) :
    List Video → List (Video × List Ev) × Nat × Option String
  | [] => ([], 0, none)
  | v :: rest =>
    match processVideoReal (venvOf v) v with
    | (evs, n, some msg) => ([(v, evs)], n, some msg)
    | (evs, n, none) =>
      let t := runVideoLoop venvOf rest
      ((v, evs) :: t.1, n + t.2.1, t.2.2)

/-- The outcome of `process_channel` in normal mode: the filtered work list,
the per-video events actually performed, the value of `new_videos_count`
when the function returns or the exception leaves it, and the propagated
exception message (`none` = normal return). -/
structure ChannelRun where
  videosToProcess : List Video
  events : List (Video × List Ev)
  newCount : Nat
  raised : Option String
deriving DecidableEq

/-- Normal (non-GET_LATEST) mode of `process_channel` (main.py lines
198-215 and the loop at 215-337): read the processed ids, filter them out of
the channel listing, and run the per-video loop over the remainder.  With at
least one unseen video the loop body raises `NameError` at its first
iteration; with none, the function returns normally with count 0. -/
def processChannelNormalReal (venvOf : Video → VideoEnv)
    (latest : List Video) (s : Store) (ch : String) : ChannelRun :=
  let pids := (getProcessedVideos s ch).map Record.videoId
  let toProcess := latest.filter (fun v => !(decide (v.id ∈ pids)))
  let r := runVideoLoop venvOf toProcess
  ⟨toProcess, r.1, r.2.1, r.2.2⟩

/-! ## The channel loop of `main` (src/src/main.py lines 92-161) -/

/-- One entry of `all_results`: either a `process_channel` result (projected
to the fields the rest of `main` reads) or the error entry built in the
`except` handler. -/
structure RunEntry where
  channelId : String
  newCount : Nat
  error : Option String
deriving DecidableEq

/-- How processing one channel ends: a returned result, or a raised and
caught exception with its message. -/
inductive ChannelOutcome
  | ok (r : RunEntry)
  | exc (msg : String)
deriving DecidableEq

/-- The `for channel_id in channels_to_monitor` loop: blank ids are skipped;
a result extends `all_results` and the total; an exception appends
the error entry — channel id, error string, new-videos count 0 — and
leaves the total unchanged. -/
def mainLoop (channels : List String) (outcome : String → ChannelOutcome) :
    List RunEntry × Nat :=
  channels.foldl
    (fun acc ch =>
      if pyStrip ch = "" then acc
      else
        match outcome (pyStrip ch) with
        | .ok r => (acc.1 ++ [r], acc.2 + r.newCount)
        | .exc m => (acc.1 ++ [⟨ch, 0, some m⟩], acc.2))
    ([], 0)

/-- The entry the loop produces for a non-blank channel. -/
def runEntryOf (outcome : String → ChannelOutcome) (ch : String) : RunEntry :=
  match outcome (pyStrip ch) with
  | .ok r => r
  | .exc m => ⟨ch, 0, some m⟩

/-- The contribution of a non-blank channel to `total_new_videos`. -/
def runCountOf (outcome : String → ChannelOutcome) (ch : String) : Nat :=
  match outcome (pyStrip ch) with
  | .ok r => r.newCount
  | .exc _ => 0

/-- The `summary_data` document (main.py lines 139-146), restricted to the fields built
from the loop. -/
structure RunSummary where
  totalNewVideos : Nat
  channelsProcessed : Nat
  results : List RunEntry
deriving DecidableEq

/-- main.py lines 92-161: run the loop, build `summary_data` (always), and
send the summary email (always); `summaryEmailOk` is SMTP's answer. -/
def runMain (channels : List String) (outcome : String → ChannelOutcome)
    (summaryEmailOk : Bool) : RunSummary × Bool :=
  let lp := mainLoop channels outcome
  ({ totalNewVideos := lp.2, channelsProcessed := channels.length, results := lp.1 },
   summaryEmailOk)

/-! ## `AISummarizer.generate_summary` (src/src/ai_summarizer.py lines 45-107) -/

/-- Outcome of one `model.generate_content` call: a text response, a blocked
prompt, an empty response, or a raised exception. -/
inductive GenOutcome
  | ok (text : String)
  | blocked
  | empty
  | raised
deriving DecidableEq

/-- Embedding of `_create_fallback_summary` (lines 150-169). -/
def fallbackSummary (v : Video) : String :=
  "\n• Main Topic: " ++ v.title ++ "\n• Key Points:\n  - Video published by "
    ++ v.channelTitle ++ "\n  - Duration: " ++ v.duration
    ++ "\n  - Unable to generate AI summary due to technical issues\n• Note: Please watch the video directly for full content\n"

/-- The `for attempt in range(max_retries)` loop: a text response returns the
stripped text, a blocked prompt returns the fallback at once, an empty
response or an exception moves to the next attempt, and a finished loop
returns the fallback.  `i` is the next attempt index, the second component of
the result is the number of `generate_content` attempts made. -/
def genLoop (resp : Nat → GenOutcome) (v : Video) : Nat → Nat → Option String × Nat
  | i, 0 => (some (fallbackSummary v), i)
  | i, fuel + 1 =>
    match resp i with
    | .ok t => (some (pyStrip t), i + 1)
    | .blocked => (some (fallbackSummary v), i + 1)
    | .empty => genLoop resp v (i + 1) fuel
    | .raised => genLoop resp v (i + 1) fuel

/-- Embedding of `generate_summary`: an empty (falsy) transcript returns `None` before any
attempt; otherwise the retry loop runs with at most `maxRetries` attempts.
(The 50000-character transcript truncation only shortens the prompt and is
not modelled.) -/
def generateSummary (resp : Nat → GenOutcome) (v : Video) (transcript : String)
    (maxRetries : Nat) : Option String × Nat :=
  if transcript = "" then (none, 0) else genLoop resp v 0 maxRetries

/-! ## `DownSubFetcher._select_best_subtitle` (src/src/downsub_fetcher.py
lines 488-516) -/

/-- A subtitle track as built by `_parse_subtitle_links`. -/
structure Subtitle where
  url : String
  language : String
  description : String
  autoGenerated : Bool
deriving DecidableEq

/-- The preference table of `_select_best_subtitle`. -/
def subtitlePrefs : List (String × Bool) :=
  [("en", false), ("en", true), ("zh", false), ("zh", true)]

/-- Embedding of `_select_best_subtitle`: `None` on an empty list; otherwise the first
track matching the first satisfiable preference, else the list's first
element. -/
def selectBestSubtitle (subs : List Subtitle) : Option Subtitle :=
  if subs.isEmpty then none
  else
    match subtitlePrefs.findSome?
        (fun p => subs.find? (fun s => s.language == p.1 && s.autoGenerated == p.2)) with
    | some s => some s
    | none => subs.head?

/-! ## `TranscriptFetcher._clean_transcript_text` (src/src/transcript_fetcher.py
lines 163-185) -/

/-- Embedding of the Python test for a two-space substring: some adjacent pair of
spaces. -/
def containsDoubleSpace : List Char → Bool
  | [] => false
  | [_] => false
  | a :: b :: rest => (a == ' ' && b == ' ') || containsDoubleSpace (b :: rest)

/-- One `text.replace('  ', ' ')` pass (non-overlapping, left to right). -/
def replaceDoubleSpace : List Char → List Char
  | [] => []
  | [c] => [c]
  | a :: b :: rest =>
    if a == ' ' && b == ' ' then ' ' :: replaceDoubleSpace rest
    else a :: replaceDoubleSpace (b :: rest)

/-- The `while '  ' in text` loop; the fuel (the input length) bounds the
iteration count, and suffices because every pass shortens the list. -/
def collapseLoop : Nat → List Char → List Char
  | 0, l => l
  | fuel + 1, l =>
    if containsDoubleSpace l then collapseLoop fuel (replaceDoubleSpace l) else l

def collapseSpaces (l : List Char) : List Char := collapseLoop l.length l

/-- Scanning for the closing delimiter of a lazy `re` match: `.` does not
match a newline, so a newline (or the end) before the closer means no match
at this opener. -/
def scanClose (closeC : Char) : List Char → Option (List Char)
  | [] => none
  | x :: rest =>
    if x = closeC then some rest
    else if x = '\n' then none
    else scanClose closeC rest

/-- Embedding of the bracket-deleting substitution (and its parenthesis variant): at each
opener, the lazy match runs to the nearest closer with no intervening
newline; matched spans are deleted, scanning resumes after the match.  Fuel
(the input length) makes the recursion structural and always suffices. -/
def removeDelimsAux (openC closeC : Char) : Nat → List Char → List Char
  | 0, l => l
  | _ + 1, [] => []
  | fuel + 1, x :: rest =>
    if x = openC then
      match scanClose closeC rest with
      | some rest' => removeDelimsAux openC closeC fuel rest'
      | none => x :: removeDelimsAux openC closeC fuel rest
    else x :: removeDelimsAux openC closeC fuel rest

def removeDelims (openC closeC : Char) (l : List Char) : List Char :=
  removeDelimsAux openC closeC l.length l

/-- Python `str.split()` with no separator: split on whitespace runs,
discarding empty pieces.  `acc` is the current word, reversed. -/
def splitWsAux : List Char → List Char → List (List Char)
  | [], acc => if acc.isEmpty then [] else [acc.reverse]
  | c :: rest, acc =>
    if isPySpace c then
      if acc.isEmpty then splitWsAux rest [] else acc.reverse :: splitWsAux rest []
    else splitWsAux rest (c :: acc)

def splitWs (l : List Char) : List (List Char) := splitWsAux l []

/-- Joining words with single spaces. -/
def joinWords : List (List Char) → List Char
  | [] => []
  | [w] => w
  | w :: w' :: ws => w ++ ' ' :: joinWords (w' :: ws)

/-- Embedding of `_clean_transcript_text`: collapse double spaces, delete bracketed spans,
delete `(...)` spans, re-join the whitespace-split words with single spaces,
and strip. -/
def cleanTranscriptTextL (l : List Char) : List Char :=
  pyStripL (joinWords (splitWs (removeDelims '(' ')' (removeDelims '[' ']' (collapseSpaces l)))))

def cleanTranscriptText (s : String) : String :=
  String.mk (cleanTranscriptTextL s.data)

/-- First character is whitespace. -/
def hasLeadingWs : List Char → Bool
  | [] => false
  | c :: _ => isPySpace c

/-- Last character is whitespace. -/
def hasTrailingWs (l : List Char) : Bool := hasLeadingWs l.reverse

/-- Recognizer for the `mark_video_processed` event. -/
def Ev.isMark : Ev → Bool
  | .mark _ _ _ => true
  | _ => false

/-- Recognizer for the `send_video_notification` event. -/
def Ev.isEmail : Ev → Bool
  | .sendEmail _ _ => true
  | _ => false

/-- A concrete video used to instantiate hypotheses at particular inputs. -/
def vDemo : Video :=
  ⟨"vid1", "Title", "Channel", "10:00", 1234, "2024-01-01", "https://example.com/v"⟩

/-! ### Store lemmas -/

theorem loadChannel_cons_pos (p : String × List Record) (rest : Store) (ch : String)
    (hp : p.1 = ch) : loadChannel (p :: rest) ch = p.2 := by
  unfold loadChannel
  rw [List.find?_cons_of_pos _ (by simp [hp])]
  simp

theorem loadChannel_cons_neg (p : String × List Record) (rest : Store) (ch : String)
    (hp : ¬ p.1 = ch) : loadChannel (p :: rest) ch = loadChannel rest ch := by
  unfold loadChannel
  rw [List.find?_cons_of_neg _ (by simp [hp])]

theorem loadChannel_setFirst_self (s : Store) (ch : String) (l : List Record)
    (h : s.any (fun p => p.1 = ch)) : loadChannel (setFirst s ch l) ch = l := by
  induction s with
  | nil => simp at h
  | cons p rest ih =>
    by_cases hp : p.1 = ch
    · rw [setFirst, if_pos hp, loadChannel_cons_pos _ _ _ rfl]
    · have hrest : rest.any (fun q => q.1 = ch) := by
        rcases List.any_eq_true.mp h with ⟨q, hq, hqq⟩
        rcases List.mem_cons.mp hq with rfl | hq'
        · exact absurd (by simpa using hqq) hp
        · exact List.any_eq_true.mpr ⟨q, hq', hqq⟩
      rw [setFirst, if_neg hp, loadChannel_cons_neg _ _ _ hp]
      exact ih hrest

theorem loadChannel_setFirst_ne (s : Store) (ch ch' : String) (l : List Record)
    (hne : ch' ≠ ch) : loadChannel (setFirst s ch l) ch' = loadChannel s ch' := by
  induction s with
  | nil => simp [setFirst]
  | cons p rest ih =>
    by_cases hp : p.1 = ch
    · rw [setFirst, if_pos hp, loadChannel_cons_neg _ _ _ (fun h => hne h.symm),
        loadChannel_cons_neg _ _ _ (by rw [hp]; exact fun h => hne h.symm)]
    · rw [setFirst, if_neg hp]
      by_cases hp' : p.1 = ch'
      · rw [loadChannel_cons_pos _ _ _ hp', loadChannel_cons_pos _ _ _ hp']
      · rw [loadChannel_cons_neg _ _ _ hp', loadChannel_cons_neg _ _ _ hp']
        exact ih

theorem loadChannel_append_new (s : Store) (ch : String)
    (h : ¬ s.any (fun p => p.1 = ch)) :
    loadChannel (s ++ [(ch, [])]) ch = [] := by
  induction s with
  | nil => exact loadChannel_cons_pos _ _ _ rfl
  | cons p rest ih =>
    simp only [List.any_cons, Bool.or_eq_true, decide_eq_true_eq, not_or] at h
    rw [List.cons_append, loadChannel_cons_neg _ _ _ h.1]
    exact ih (by simpa using h.2)

theorem loadChannel_append_ne (s : Store) (ch ch' : String) (hne : ch' ≠ ch) :
    loadChannel (s ++ [(ch, [])]) ch' = loadChannel s ch' := by
  induction s with
  | nil =>
    rw [List.nil_append, loadChannel_cons_neg _ _ _ (fun h => hne h.symm)]
  | cons p rest ih =>
    by_cases hp : p.1 = ch'
    · rw [List.cons_append, loadChannel_cons_pos _ _ _ hp, loadChannel_cons_pos _ _ _ hp]
    · rw [List.cons_append, loadChannel_cons_neg _ _ _ hp, loadChannel_cons_neg _ _ _ hp]
      exact ih

/-- Appending a record: the marked channel's stored list gains exactly the new
record at the end. -/
theorem loadChannel_mark_self (s : Store) (ch vid : String) (vi : VideoInfo)
    (summary : String) (es : Bool) (now : String) :
    loadChannel (markVideoProcessed s ch vid vi summary es now) ch
      = loadChannel s ch ++ [mkProcessedRecord vid vi summary es now] := by
  unfold markVideoProcessed
  by_cases h : s.any (fun p => p.1 = ch)
  · rw [if_pos h]
    exact loadChannel_setFirst_self s ch _ h
  · rw [if_neg h]
    have hany : (s ++ [(ch, [])]).any (fun p => p.1 = ch) = true := by
      simp [List.any_append]
    rw [loadChannel_setFirst_self _ ch _ hany, loadChannel_append_new s ch h]
    have hload : loadChannel s ch = [] := by
      unfold loadChannel
      have : s.find? (fun p => p.1 = ch) = none := by
        rw [List.find?_eq_none]
        intro p hp
        simp only [decide_eq_true_eq]
        intro hpp
        exact h (List.any_eq_true.mpr ⟨p, hp, by simp [hpp]⟩)
      simp [this]
    simp [hload]

/-- Other channels' stored lists are untouched by `mark_video_processed`. -/
theorem loadChannel_mark_ne (s : Store) (ch ch' vid : String) (vi : VideoInfo)
    (summary : String) (es : Bool) (now : String) (hne : ch' ≠ ch) :
    loadChannel (markVideoProcessed s ch vid vi summary es now) ch'
      = loadChannel s ch' := by
  unfold markVideoProcessed
  by_cases h : s.any (fun p => p.1 = ch)
  · rw [if_pos h]
    exact loadChannel_setFirst_ne s ch ch' _ hne
  · rw [if_neg h, loadChannel_setFirst_ne _ ch ch' _ hne, loadChannel_append_ne s ch ch' hne]

/-! ## Claims C2 and C3 -/

/-- C3: every record written by `mark_video_processed` carries the video id,
the title, the published and processed timestamps, the email-sent flag and the
summary truncated to its first 1000 characters; the stored summary field is
never longer than 1000 characters.  The record is appended to the marked
channel's list. -/
theorem claim_C3_record_fields (s : Store) (ch vid : String) (vi : VideoInfo)
    (summary : String) (es : Bool) (now : String) :
    loadChannel (markVideoProcessed s ch vid vi summary es now) ch
      = loadChannel s ch ++ [mkProcessedRecord vid vi summary es now]
    ∧ (mkProcessedRecord vid vi summary es now).videoId = vid
    ∧ (mkProcessedRecord vid vi summary es now).title = vi.title.getD "Unknown"
    ∧ (mkProcessedRecord vid vi summary es now).publishedAt = vi.publishedAt.getD ""
    ∧ (mkProcessedRecord vid vi summary es now).processedAt = now
    ∧ (mkProcessedRecord vid vi summary es now).emailSent = es
    ∧ (mkProcessedRecord vid vi summary es now).summary = pySlice summary 1000
    ∧ (mkProcessedRecord vid vi summary es now).summary.length ≤ 1000 := by
  refine ⟨loadChannel_mark_self s ch vid vi summary es now,
    rfl, rfl, rfl, rfl, rfl, rfl, ?_⟩
  show (String.mk (summary.data.take 1000)).length ≤ 1000
  simp only [String.length]
  calc (summary.data.take 1000).length ≤ 1000 := by
        rw [List.length_take]
        exact min_le_left _ _

/-- C2 counterexample: `mark_video_processed` appends unconditionally, so the
two-call sequence `dupStore` leaves the video id `"v"` twice in channel
`"c"`'s processed list, violating "each video id occurs at most once after
any sequence of DataStore operations". -/
theorem claim_C2_counterexample :
    ¬ (((loadChannel dupStore "c").filter (fun r => r.videoId = "v")).length ≤ 1) := by
  decide

/-- C2 (amended): `mark_video_processed` appends without any duplicate check,
so uniqueness of video ids is not an invariant of the DataStore itself; it is
preserved exactly when each call marks an id that is not yet in that
channel's list (which is how normal-mode `process_channel` calls it). -/
theorem claim_C2_unique_preserved (s : Store) (ch vid : String) (vi : VideoInfo)
    (summary : String) (es : Bool) (now : String)
    (hinv : ∀ c : String, ((loadChannel s c).map Record.videoId).Nodup)
    (hfresh : vid ∉ (loadChannel s ch).map Record.videoId) :
    ∀ c : String,
      ((loadChannel (markVideoProcessed s ch vid vi summary es now) c).map
        Record.videoId).Nodup := by
  intro c
  by_cases hc : c = ch
  · subst hc
    rw [loadChannel_mark_self, List.map_append]
    refine List.Nodup.append (hinv c) (List.nodup_singleton _) ?_
    intro a ha hb
    simp only [List.map_cons, List.map_nil, List.mem_singleton] at hb
    subst hb
    exact hfresh ha
  · rw [loadChannel_mark_ne s ch c vid vi summary es now hc]
    exact hinv c

theorem claim_C2_unique_preserved_witness :
    ((loadChannel (markVideoProcessed [] "c" "v" viNone "" false "t") "c").map
      Record.videoId).Nodup :=
  claim_C2_unique_preserved [] "c" "v" viNone "" false "t"
    (fun c => by simp [loadChannel]) (by simp [loadChannel]) "c"

/-! ## Claims C1, C4, C5, C6: the per-video loop

The loop body of `process_channel` references `config` (main.py line 222) and
`downsub_fetcher` (line 225), locals of `main`; the first reference raises
`NameError` before any observable action, and main.py's per-channel handler
turns it into an error entry.  The claims about transcript acquisition,
notification and persistence are settled against this behaviour. -/

theorem processVideoReal_eq (venv : VideoEnv) (v : Video) :
    processVideoReal venv v = ([], 0, some "name 'config' is not defined") := rfl

theorem runVideoLoop_closed (venvOf : Video → VideoEnv) (l : List Video) :
    runVideoLoop venvOf l
      = match l with
        | [] => ([], 0, none)
        | v :: _ => ([(v, [])], 0, some "name 'config' is not defined") := by
  cases l with
  | nil => rfl
  | cons v rest => simp [runVideoLoop, processVideoReal_eq]

/-- C1: the provider chain is never exercised.  `config` does not resolve in
`process_channel`'s scope (main.py line 222), so the per-video loop body
raises `NameError` before attempting any transcript provider: for every video
the body performs no event at all (in particular no provider attempt), and a
channel with at least one unseen listed video aborts with that `NameError`
instead of attempting the primary, secondary or tertiary provider. -/
theorem claim_C1_name_error (venvOf : Video → VideoEnv) (v : Video)
    (latest : List Video) (s : Store) (ch : String) :
    pyLookup processChannelScope "config" = some "name 'config' is not defined"
    ∧ processVideoReal (venvOf v) v = ([], 0, some "name 'config' is not defined")
    ∧ (∀ p ∈ (processChannelNormalReal venvOf latest s ch).events, p.2 = [])
    ∧ ((processChannelNormalReal venvOf latest s ch).videosToProcess ≠ [] →
        (processChannelNormalReal venvOf latest s ch).raised
          = some "name 'config' is not defined") := by
  refine ⟨by decide, processVideoReal_eq _ _, ?_, ?_⟩
  · intro p hp
    simp only [processChannelNormalReal] at hp
    rw [runVideoLoop_closed] at hp
    cases h : latest.filter
        (fun w => !(decide (w.id ∈ (getProcessedVideos s ch).map Record.videoId))) with
    | nil =>
      rw [h] at hp
      exact absurd hp (by simp)
    | cons w rest =>
      rw [h] at hp
      rcases List.mem_singleton.mp hp with rfl
      rfl
  · intro hne
    simp only [processChannelNormalReal] at hne ⊢
    rw [runVideoLoop_closed]
    cases h : latest.filter
        (fun w => !(decide (w.id ∈ (getProcessedVideos s ch).map Record.videoId))) with
    | nil =>
      rw [h] at hne
      exact absurd rfl hne
    | cons w rest => rfl

theorem claim_C1_name_error_witness :
    (processChannelNormalReal (fun _ => ⟨⟨none, ApiOutcome.noneFound, none⟩, none, false⟩)
        [vDemo] [] "c").raised = some "name 'config' is not defined" :=
  (claim_C1_name_error (fun _ => ⟨⟨none, ApiOutcome.noneFound, none⟩, none, false⟩)
    vDemo [vDemo] [] "c").2.2.2 (by decide)

/-- C4: the success path is unreachable.  Even for a video whose transcript
would be available (the DownSub source would answer), the loop body raises
`NameError` before acquisition: nothing is saved, summarized, emailed or
marked, nothing is counted, and the record-after-email ordering asserted by
the claim never happens because the record is never written at all. -/
theorem claim_C4_no_success_path (venv : VideoEnv) (v : Video) (_t _l : String)
    (_havail : venv.fetch.downsub = some (_t, _l)) :
    (processVideoReal venv v).1 = []
    ∧ (processVideoReal venv v).1.filter Ev.isMark = []
    ∧ (processVideoReal venv v).2.1 = 0
    ∧ (processVideoReal venv v).2.2 = some "name 'config' is not defined" := by
  rw [processVideoReal_eq]
  exact ⟨rfl, rfl, rfl, rfl⟩

theorem claim_C4_no_success_path_witness :
    (processVideoReal ⟨⟨some ("T", "en"), ApiOutcome.noneFound, none⟩, some "S", true⟩
        vDemo).2.2 = some "name 'config' is not defined" :=
  (claim_C4_no_success_path ⟨⟨some ("T", "en"), ApiOutcome.noneFound, none⟩, some "S", true⟩
    vDemo "T" "en" rfl).2.2.2

/-- C6: the all-providers-fail path is unreachable.  For a video for which
every transcript source would fail, the loop body still raises `NameError`
before any provider attempt: no "no transcript" notification email is sent,
the video is not recorded as processed, and nothing is counted. -/
theorem claim_C6_no_failure_path (venv : VideoEnv) (v : Video)
    (_hds : venv.fetch.downsub = none) (_hyt : venv.fetch.ytdlp = none)
    (_hapi : ∀ t l, venv.fetch.api ≠ ApiOutcome.found t l) :
    (processVideoReal venv v).1.filter Ev.isEmail = []
    ∧ (processVideoReal venv v).1.filter Ev.isMark = []
    ∧ (processVideoReal venv v).2.1 = 0
    ∧ (processVideoReal venv v).2.2 = some "name 'config' is not defined" := by
  rw [processVideoReal_eq]
  exact ⟨rfl, rfl, rfl, rfl⟩

theorem claim_C6_no_failure_path_witness :
    (processVideoReal ⟨⟨none, ApiOutcome.noneFound, none⟩, none, false⟩ vDemo).2.1 = 0 :=
  (claim_C6_no_failure_path ⟨⟨none, ApiOutcome.noneFound, none⟩, none, false⟩ vDemo
    rfl rfl (fun _ _ h => ApiOutcome.noConfusion h)).2.2.1

/-- C5: in normal mode a listed video whose id already appears in the
channel's processed list is filtered out before the per-video loop: no entry
of `videos_to_process` carries its id, no action of the run concerns it, and
it is not counted — the channel's `new_videos_count` is 0 on every path
(normal return with nothing to process, or the `NameError` abort). -/
theorem claim_C5_skip_processed (venvOf : Video → VideoEnv)
    (latest : List Video) (s : Store) (ch : String) (v : Video)
    (_hv : v ∈ latest)
    (hseen : v.id ∈ (getProcessedVideos s ch).map Record.videoId) :
    (∀ w ∈ (processChannelNormalReal venvOf latest s ch).videosToProcess, w.id ≠ v.id)
    ∧ (∀ p ∈ (processChannelNormalReal venvOf latest s ch).events, p.1.id ≠ v.id)
    ∧ (processChannelNormalReal venvOf latest s ch).newCount = 0 := by
  have hfilter : ∀ w ∈ latest.filter
      (fun w => !(decide (w.id ∈ (getProcessedVideos s ch).map Record.videoId))),
      w.id ≠ v.id := by
    intro w hw hEq
    have hw2 := (List.mem_filter.mp hw).2
    rw [hEq, Bool.not_eq_true', decide_eq_false_iff_not] at hw2
    exact hw2 hseen
  refine ⟨?_, ?_, ?_⟩
  · intro w hw
    simp only [processChannelNormalReal] at hw
    exact hfilter w hw
  · intro p hp
    simp only [processChannelNormalReal] at hp
    rw [runVideoLoop_closed] at hp
    cases h : latest.filter
        (fun w => !(decide (w.id ∈ (getProcessedVideos s ch).map Record.videoId))) with
    | nil =>
      rw [h] at hp
      exact absurd hp (by simp)
    | cons w rest =>
      rw [h] at hp
      rcases List.mem_singleton.mp hp with rfl
      exact hfilter w (h ▸ List.mem_cons_self w rest)
  · simp only [processChannelNormalReal]
    rw [runVideoLoop_closed]
    cases latest.filter
        (fun w => !(decide (w.id ∈ (getProcessedVideos s ch).map Record.videoId))) with
    | nil => rfl
    | cons w rest => rfl

theorem claim_C5_skip_processed_witness :
    (processChannelNormalReal (fun _ => ⟨⟨none, ApiOutcome.noneFound, none⟩, none, false⟩)
        [vDemo] (markVideoProcessed [] "c" "vid1" viNone "" false "t") "c").newCount = 0 :=
  (claim_C5_skip_processed (fun _ => ⟨⟨none, ApiOutcome.noneFound, none⟩, none, false⟩)
    [vDemo] (markVideoProcessed [] "c" "vid1" viNone "" false "t") "c" vDemo
    (by decide) (by decide)).2.2

/-! ## Claim C7: channel-level error isolation -/

theorem mainLoop_go (outcome : String → ChannelOutcome) :
    ∀ (channels : List String) (acc : List RunEntry × Nat),
      channels.foldl
        (fun acc ch =>
          if pyStrip ch = "" then acc
          else
            match outcome (pyStrip ch) with
            | .ok r => (acc.1 ++ [r], acc.2 + r.newCount)
            | .exc m => (acc.1 ++ [⟨ch, 0, some m⟩], acc.2)) acc
      = (acc.1 ++ (channels.filter (fun c => !(decide (pyStrip c = "")))).map
            (runEntryOf outcome),
         acc.2 + ((channels.filter (fun c => !(decide (pyStrip c = "")))).map
            (runCountOf outcome)).sum) := by
  intro channels
  induction channels with
  | nil => intro acc; simp
  | cons ch chs ih =>
    intro acc
    rw [List.foldl_cons]
    by_cases hb : pyStrip ch = ""
    · rw [if_pos hb, ih]
      have : (List.filter (fun c => !(decide (pyStrip c = ""))) (ch :: chs))
          = List.filter (fun c => !(decide (pyStrip c = ""))) chs := by
        rw [List.filter_cons]
        simp [hb]
      rw [this]
    · rw [if_neg hb]
      have hfilter : (List.filter (fun c => !(decide (pyStrip c = ""))) (ch :: chs))
          = ch :: List.filter (fun c => !(decide (pyStrip c = ""))) chs := by
        rw [List.filter_cons]
        simp [hb]
      cases hout : outcome (pyStrip ch) with
      | ok r =>
        rw [ih, hfilter]
        simp only [List.map_cons, List.sum_cons, runEntryOf, runCountOf, hout]
        simp [List.append_assoc, Nat.add_assoc]
      | exc m =>
        rw [ih, hfilter]
        simp only [List.map_cons, List.sum_cons, runEntryOf, runCountOf, hout]
        simp [List.append_assoc, Nat.add_assoc]

/-- C7: an exception while processing one channel is caught: that channel
contributes the error entry `{channel_id, error, new_videos_count: 0}` and 0
to the total, every other non-blank channel still contributes its own entry,
and `summary_data` with all entries plus the summary email are still
produced. -/
theorem claim_C7_channel_isolation (channels : List String)
    (outcome : String → ChannelOutcome) (ch m : String) (seOk : Bool)
    (hmem : ch ∈ channels) (hne : ¬ pyStrip ch = "")
    (hexc : outcome (pyStrip ch) = .exc m) :
    (RunEntry.mk ch 0 (some m)) ∈ (runMain channels outcome seOk).1.results
    ∧ (runMain channels outcome seOk).1.results
        = (channels.filter (fun c => !(decide (pyStrip c = "")))).map (runEntryOf outcome)
    ∧ (runMain channels outcome seOk).1.totalNewVideos
        = ((channels.filter (fun c => !(decide (pyStrip c = "")))).map
            (runCountOf outcome)).sum
    ∧ (runMain channels outcome seOk).2 = seOk := by
  have hloop : mainLoop channels outcome
      = ((channels.filter (fun c => !(decide (pyStrip c = "")))).map (runEntryOf outcome),
         ((channels.filter (fun c => !(decide (pyStrip c = "")))).map
            (runCountOf outcome)).sum) := by
    have := mainLoop_go outcome channels ([], 0)
    simpa [mainLoop] using this
  refine ⟨?_, ?_, ?_, rfl⟩
  · show _ ∈ (mainLoop channels outcome).1
    rw [hloop]
    refine List.mem_map.mpr ⟨ch, ?_, ?_⟩
    · exact List.mem_filter.mpr ⟨hmem, by simp [hne]⟩
    · simp [runEntryOf, hexc]
  · show (mainLoop channels outcome).1 = _
    rw [hloop]
  · show (mainLoop channels outcome).2 = _
    rw [hloop]

theorem claim_C7_channel_isolation_witness :
    (RunEntry.mk "bad" 0 (some "boom")) ∈
      (runMain ["good", "bad"]
        (fun c => if c = "bad" then .exc "boom" else .ok ⟨c, 2, none⟩) true).1.results :=
  (claim_C7_channel_isolation ["good", "bad"]
    (fun c => if c = "bad" then .exc "boom" else .ok ⟨c, 2, none⟩) "bad" "boom" true
    (by decide) (by decide) (by decide)).1

/-! ## Claim C8: `generate_summary` retry behaviour -/

theorem genLoop_isSome (resp : Nat → GenOutcome) (v : Video) :
    ∀ (fuel i : Nat), ((genLoop resp v i fuel).1).isSome = true := by
  intro fuel
  induction fuel with
  | zero => intro i; rfl
  | succ fuel ih =>
    intro i
    show ((genLoop resp v i (fuel + 1)).1).isSome = true
    rw [genLoop]
    cases resp i <;> simp [ih]

theorem genLoop_attempts_le (resp : Nat → GenOutcome) (v : Video) :
    ∀ (fuel i : Nat), (genLoop resp v i fuel).2 ≤ i + fuel := by
  intro fuel
  induction fuel with
  | zero => intro i; simp [genLoop]
  | succ fuel ih =>
    intro i
    rw [genLoop]
    cases resp i
    · simp
    · simp
    · have := ih (i + 1)
      show (genLoop resp v (i + 1) fuel).2 ≤ i + (fuel + 1)
      omega
    · have := ih (i + 1)
      show (genLoop resp v (i + 1) fuel).2 ≤ i + (fuel + 1)
      omega

theorem genLoop_allFail (resp : Nat → GenOutcome) (v : Video) :
    ∀ (fuel i : Nat),
      (∀ j, i ≤ j → j < i + fuel → (resp j = .empty ∨ resp j = .raised)) →
      genLoop resp v i fuel = (some (fallbackSummary v), i + fuel) := by
  intro fuel
  induction fuel with
  | zero => intro i _; simp [genLoop]
  | succ fuel ih =>
    intro i h
    rw [show i + (fuel + 1) = (i + 1) + fuel from by omega, genLoop]
    rcases h i (le_refl i) (by omega) with hi | hi <;> rw [hi] <;>
      exact ih (i + 1) (fun j hj1 hj2 => h j (by omega) (by omega))

theorem genLoop_decisive (resp : Nat → GenOutcome) (v : Video) :
    ∀ (fuel i k : Nat), i ≤ k → k < i + fuel →
      (∀ j, i ≤ j → j < k → (resp j = .empty ∨ resp j = .raised)) →
      genLoop resp v i fuel
        = (match resp k with
           | .ok t => (some (pyStrip t), k + 1)
           | .blocked => (some (fallbackSummary v), k + 1)
           | _ => genLoop resp v i fuel) := by
  intro fuel
  induction fuel with
  | zero => intro i k h1 h2; omega
  | succ fuel ih =>
    intro i k h1 h2 h3
    rcases Nat.lt_or_ge i k with hik | hik
    · have hi := h3 i (le_refl i) hik
      have step : genLoop resp v i (fuel + 1) = genLoop resp v (i + 1) fuel := by
        rw [genLoop]
        rcases hi with hi | hi <;> rw [hi]
      rw [step]
      rw [ih (i + 1) k (by omega) (by omega) (fun j hj1 hj2 => h3 j (by omega) hj2)]
      cases hk : resp k <;> simp [step]
    · have hik' : i = k := by omega
      subst hik'
      rw [genLoop]
      cases hk : resp i <;> simp [genLoop, hk]

/-- C8: for a non-empty transcript `generate_summary` makes at most
`max_retries` `generate_content` attempts and always returns a summary — the
stripped model text at the first successful attempt, the metadata fallback as
soon as a prompt is blocked, and the metadata fallback when all attempts
return empty or raise; for an empty transcript it returns `None` with zero
attempts. -/
theorem claim_C8_generate_summary (resp : Nat → GenOutcome) (v : Video)
    (transcript : String) (n : Nat) :
    (transcript = "" → generateSummary resp v transcript n = (none, 0))
    ∧ (transcript ≠ "" →
        ((generateSummary resp v transcript n).1.isSome = true
          ∧ (generateSummary resp v transcript n).2 ≤ n))
    ∧ (transcript ≠ "" →
        (∀ j, j < n → (resp j = .empty ∨ resp j = .raised)) →
        generateSummary resp v transcript n = (some (fallbackSummary v), n))
    ∧ (transcript ≠ "" → ∀ k t, k < n →
        (∀ j, j < k → (resp j = .empty ∨ resp j = .raised)) →
        resp k = .ok t →
        generateSummary resp v transcript n = (some (pyStrip t), k + 1))
    ∧ (transcript ≠ "" → ∀ k, k < n →
        (∀ j, j < k → (resp j = .empty ∨ resp j = .raised)) →
        resp k = .blocked →
        generateSummary resp v transcript n = (some (fallbackSummary v), k + 1)) := by
  refine ⟨fun h => by simp [generateSummary, h], fun h => ?_, fun h hall => ?_,
    fun h k t hk hprev hok => ?_, fun h k hk hprev hbl => ?_⟩
  · rw [generateSummary, if_neg h]
    exact ⟨genLoop_isSome resp v n 0, by simpa using genLoop_attempts_le resp v n 0⟩
  · rw [generateSummary, if_neg h]
    have := genLoop_allFail resp v n 0 (fun j hj1 hj2 => hall j (by omega))
    simpa using this
  · rw [generateSummary, if_neg h]
    have := genLoop_decisive resp v n 0 k (by omega) (by omega)
      (fun j hj1 hj2 => hprev j hj2)
    rw [hok] at this
    exact this
  · rw [generateSummary, if_neg h]
    have := genLoop_decisive resp v n 0 k (by omega) (by omega)
      (fun j hj1 hj2 => hprev j hj2)
    rw [hbl] at this
    exact this

theorem claim_C8_generate_summary_witness :
    (generateSummary (fun _ => GenOutcome.raised) vDemo "hello" 3).1.isSome = true
    ∧ (generateSummary (fun _ => GenOutcome.raised) vDemo "hello" 3).2 ≤ 3 :=
  (claim_C8_generate_summary (fun _ => GenOutcome.raised) vDemo "hello" 3).2.1
    (by decide)

/-! ## Claim C9: subtitle selection -/

theorem selectBest_expand (subs : List Subtitle) :
    selectBestSubtitle subs =
      if subs.isEmpty then none
      else
        match subs.find? (fun s => s.language == "en" && s.autoGenerated == false) with
        | some s => some s
        | none =>
          match subs.find? (fun s => s.language == "en" && s.autoGenerated == true) with
          | some s => some s
          | none =>
            match subs.find? (fun s => s.language == "zh" && s.autoGenerated == false) with
            | some s => some s
            | none =>
              match subs.find? (fun s => s.language == "zh" && s.autoGenerated == true) with
              | some s => some s
              | none => subs.head? := by
  by_cases he : subs.isEmpty
  · rw [selectBestSubtitle, if_pos he, if_pos he]
  · rw [selectBestSubtitle, if_neg he, if_neg he]
    simp only [subtitlePrefs, List.findSome?_cons, List.findSome?_nil]
    cases h1 : subs.find? (fun s => s.language == "en" && s.autoGenerated == false) with
    | some s1 => simp [h1]
    | none =>
      simp only [h1]
      cases h2 : subs.find? (fun s => s.language == "en" && s.autoGenerated == true) with
      | some s2 => simp [h2]
      | none =>
        simp only [h2]
        cases h3 : subs.find? (fun s => s.language == "zh" && s.autoGenerated == false) with
        | some s3 => simp [h3]
        | none =>
          simp only [h3]
          cases h4 : subs.find? (fun s => s.language == "zh" && s.autoGenerated == true) with
          | some s4 => simp [h4]
          | none => simp [h4]

theorem selectBest_isSome (subs : List Subtitle) (h : subs ≠ []) :
    (selectBestSubtitle subs).isSome = true := by
  rw [selectBest_expand, if_neg (by simpa [List.isEmpty_iff] using h)]
  cases h1 : subs.find? (fun s => s.language == "en" && s.autoGenerated == false) with
  | some s1 => rfl
  | none =>
    cases h2 : subs.find? (fun s => s.language == "en" && s.autoGenerated == true) with
    | some s2 => rfl
    | none =>
      cases h3 : subs.find? (fun s => s.language == "zh" && s.autoGenerated == false) with
      | some s3 => rfl
      | none =>
        cases h4 : subs.find? (fun s => s.language == "zh" && s.autoGenerated == true) with
        | some s4 => rfl
        | none =>
          cases subs with
          | nil => exact absurd rfl h
          | cons a l => rfl

/-- C9: `_select_best_subtitle` returns `None` exactly on an empty track
list; on a non-empty list it returns a member of the list — the first track
matching the preference order English-manual, English-auto, Chinese-manual,
Chinese-auto, and the list's first element when no preference matches. -/
theorem claim_C9_select_best (subs : List Subtitle) :
    (selectBestSubtitle subs = none ↔ subs = [])
    ∧ (∀ s, selectBestSubtitle subs = some s → s ∈ subs)
    ∧ (∀ s, subs.find? (fun x => x.language == "en" && x.autoGenerated == false) = some s →
        selectBestSubtitle subs = some s)
    ∧ (subs.find? (fun x => x.language == "en" && x.autoGenerated == false) = none →
       ∀ s, subs.find? (fun x => x.language == "en" && x.autoGenerated == true) = some s →
        selectBestSubtitle subs = some s)
    ∧ (subs.find? (fun x => x.language == "en" && x.autoGenerated == false) = none →
       subs.find? (fun x => x.language == "en" && x.autoGenerated == true) = none →
       ∀ s, subs.find? (fun x => x.language == "zh" && x.autoGenerated == false) = some s →
        selectBestSubtitle subs = some s)
    ∧ (subs.find? (fun x => x.language == "en" && x.autoGenerated == false) = none →
       subs.find? (fun x => x.language == "en" && x.autoGenerated == true) = none →
       subs.find? (fun x => x.language == "zh" && x.autoGenerated == false) = none →
       ∀ s, subs.find? (fun x => x.language == "zh" && x.autoGenerated == true) = some s →
        selectBestSubtitle subs = some s)
    ∧ (subs.find? (fun x => x.language == "en" && x.autoGenerated == false) = none →
       subs.find? (fun x => x.language == "en" && x.autoGenerated == true) = none →
       subs.find? (fun x => x.language == "zh" && x.autoGenerated == false) = none →
       subs.find? (fun x => x.language == "zh" && x.autoGenerated == true) = none →
       subs ≠ [] → selectBestSubtitle subs = subs.head?) := by
  refine ⟨⟨fun hn => ?_, fun he => ?_⟩, fun s hs => ?_, fun s h1 => ?_,
    fun h1 s h2 => ?_, fun h1 h2 s h3 => ?_, fun h1 h2 h3 s h4 => ?_,
    fun h1 h2 h3 h4 hne => ?_⟩
  · by_contra hne
    have := selectBest_isSome subs hne
    rw [hn] at this
    exact absurd this (by simp)
  · subst he
    rfl
  · rw [selectBest_expand] at hs
    by_cases he : subs.isEmpty
    · rw [if_pos he] at hs
      exact absurd hs (by simp)
    · rw [if_neg he] at hs
      cases h1 : subs.find? (fun x => x.language == "en" && x.autoGenerated == false) with
      | some s1 =>
        rw [h1] at hs
        cases hs
        exact List.mem_of_find?_eq_some h1
      | none =>
        rw [h1] at hs
        cases h2 : subs.find? (fun x => x.language == "en" && x.autoGenerated == true) with
        | some s2 =>
          rw [h2] at hs
          cases hs
          exact List.mem_of_find?_eq_some h2
        | none =>
          rw [h2] at hs
          cases h3 : subs.find? (fun x => x.language == "zh" && x.autoGenerated == false) with
          | some s3 =>
            rw [h3] at hs
            cases hs
            exact List.mem_of_find?_eq_some h3
          | none =>
            rw [h3] at hs
            cases h4 : subs.find? (fun x => x.language == "zh" && x.autoGenerated == true) with
            | some s4 =>
              rw [h4] at hs
              cases hs
              exact List.mem_of_find?_eq_some h4
            | none =>
              rw [h4] at hs
              have hs' : subs.head? = some s := hs
              exact List.mem_of_mem_head? (by simp [hs'])
  · have hne : subs ≠ [] := by
      intro hnil
      rw [hnil] at h1
      exact absurd h1 (by simp)
    rw [selectBest_expand, if_neg (by simpa [List.isEmpty_iff] using hne), h1]
  · have hne : subs ≠ [] := by
      intro hnil
      rw [hnil] at h2
      exact absurd h2 (by simp)
    rw [selectBest_expand, if_neg (by simpa [List.isEmpty_iff] using hne), h1, h2]
  · have hne : subs ≠ [] := by
      intro hnil
      rw [hnil] at h3
      exact absurd h3 (by simp)
    rw [selectBest_expand, if_neg (by simpa [List.isEmpty_iff] using hne), h1, h2, h3]
  · have hne : subs ≠ [] := by
      intro hnil
      rw [hnil] at h4
      exact absurd h4 (by simp)
    rw [selectBest_expand, if_neg (by simpa [List.isEmpty_iff] using hne), h1, h2, h3, h4]
  · rw [selectBest_expand, if_neg (by simpa [List.isEmpty_iff] using hne), h1, h2, h3, h4]

/-! ## Claim C10: `_clean_transcript_text` -/

theorem not_space_char (c : Char) (h : isPySpace c = false) : (c == ' ') = false := by
  cases hsp : (c == ' ') with
  | false => rfl
  | true =>
    exfalso
    rw [isPySpace, hsp] at h
    simp at h

theorem splitWsAux_good :
    ∀ (l acc : List Char), (∀ c ∈ acc, isPySpace c = false) →
      ∀ w ∈ splitWsAux l acc, w ≠ [] ∧ ∀ c ∈ w, isPySpace c = false := by
  intro l
  induction l with
  | nil =>
    intro acc hacc w hw
    rw [splitWsAux] at hw
    by_cases he : acc.isEmpty
    · rw [if_pos he] at hw
      exact absurd hw (by simp)
    · rw [if_neg he] at hw
      rcases List.mem_singleton.mp hw with rfl
      refine ⟨by simpa [List.isEmpty_iff] using he, fun c hc => hacc c ?_⟩
      exact List.mem_reverse.mp hc
  | cons c rest ih =>
    intro acc hacc w hw
    rw [splitWsAux] at hw
    by_cases hsp : isPySpace c
    · rw [if_pos hsp] at hw
      by_cases he : acc.isEmpty
      · rw [if_pos he] at hw
        exact ih [] (by simp) w hw
      · rw [if_neg he] at hw
        rcases List.mem_cons.mp hw with rfl | hw'
        · refine ⟨by simpa [List.isEmpty_iff] using he, fun x hx => hacc x ?_⟩
          exact List.mem_reverse.mp hx
        · exact ih [] (by simp) w hw'
    · rw [if_neg hsp] at hw
      refine ih (c :: acc) ?_ w hw
      intro x hx
      rcases List.mem_cons.mp hx with rfl | hx'
      · simpa using hsp
      · exact hacc x hx'

theorem hasLeadingWs_append (a b : List Char) (ha : a ≠ []) :
    hasLeadingWs (a ++ b) = hasLeadingWs a := by
  cases a with
  | nil => exact absurd rfl ha
  | cons c t => rfl

theorem hasTrailingWs_append (a b : List Char) (hb : b ≠ []) :
    hasTrailingWs (a ++ b) = hasTrailingWs b := by
  unfold hasTrailingWs
  rw [List.reverse_append]
  exact hasLeadingWs_append _ _ (by simpa using hb)

theorem hasTrailingWs_cons (c : Char) (l : List Char) (hl : l ≠ []) :
    hasTrailingWs (c :: l) = hasTrailingWs l := by
  have h : c :: l = [c] ++ l := rfl
  rw [h, hasTrailingWs_append [c] l hl]

theorem joinWords_ne_nil (ws : List (List Char)) (hne : ws ≠ [])
    (hws : ∀ w ∈ ws, w ≠ []) : joinWords ws ≠ [] := by
  match ws with
  | [] => exact absurd rfl hne
  | [w] => exact hws w (by simp)
  | w :: w' :: rest =>
    rw [joinWords]
    simp

theorem joinWords_noLead (ws : List (List Char))
    (hws : ∀ w ∈ ws, w ≠ [] ∧ ∀ c ∈ w, isPySpace c = false) :
    hasLeadingWs (joinWords ws) = false := by
  match ws with
  | [] => rfl
  | [w] =>
    rw [joinWords]
    obtain ⟨hne, hch⟩ := hws w (by simp)
    cases w with
    | nil => exact absurd rfl hne
    | cons c t => exact hch c (by simp)
  | w :: w' :: rest =>
    rw [joinWords]
    obtain ⟨hne, hch⟩ := hws w (by simp)
    rw [hasLeadingWs_append _ _ hne]
    cases w with
    | nil => exact absurd rfl hne
    | cons c t => exact hch c (by simp)

theorem joinWords_noTrail (ws : List (List Char))
    (hws : ∀ w ∈ ws, w ≠ [] ∧ ∀ c ∈ w, isPySpace c = false) :
    hasTrailingWs (joinWords ws) = false := by
  match ws with
  | [] => rfl
  | [w] =>
    rw [joinWords]
    obtain ⟨hne, hch⟩ := hws w (by simp)
    unfold hasTrailingWs
    cases hrev : w.reverse with
    | nil => exact absurd (by simpa using congrArg List.reverse hrev) hne
    | cons c t =>
      have hmem : c ∈ w := List.mem_reverse.mp (hrev ▸ List.mem_cons_self c t)
      exact hch c hmem
  | w :: w' :: rest =>
    rw [joinWords]
    have hJ : joinWords (w' :: rest) ≠ [] :=
      joinWords_ne_nil _ (by simp) (fun x hx => (hws x (List.mem_cons_of_mem _ hx)).1)
    rw [hasTrailingWs_append _ _ (by simp), hasTrailingWs_cons _ _ hJ]
    exact joinWords_noTrail (w' :: rest) (fun x hx => hws x (List.mem_cons_of_mem _ hx))

theorem containsDoubleSpace_nospace (w : List Char)
    (hw : ∀ c ∈ w, isPySpace c = false) : containsDoubleSpace w = false := by
  induction w with
  | nil => rfl
  | cons c t ih =>
    cases t with
    | nil => rfl
    | cons y r =>
      rw [containsDoubleSpace]
      rw [not_space_char c (hw c (by simp))]
      simp only [Bool.false_and, Bool.false_or]
      exact ih (fun x hx => hw x (List.mem_cons_of_mem _ hx))

theorem containsDoubleSpace_append_nospace (a t : List Char)
    (ha : ∀ c ∈ a, isPySpace c = false) :
    containsDoubleSpace (a ++ t) = containsDoubleSpace t := by
  induction a with
  | nil => rfl
  | cons c a' ih =>
    rw [List.cons_append]
    cases hsplit : a' ++ t with
    | nil =>
      rcases List.append_eq_nil.mp hsplit with ⟨rfl, rfl⟩
      rfl
    | cons y r =>
      rw [hsplit] at ih
      rw [containsDoubleSpace, not_space_char c (ha c (by simp))]
      simp only [Bool.false_and, Bool.false_or]
      exact ih (fun x hx => ha x (List.mem_cons_of_mem _ hx))

theorem containsDoubleSpace_join (ws : List (List Char))
    (hws : ∀ w ∈ ws, w ≠ [] ∧ ∀ c ∈ w, isPySpace c = false) :
    containsDoubleSpace (joinWords ws) = false := by
  match ws with
  | [] => rfl
  | [w] =>
    rw [joinWords]
    exact containsDoubleSpace_nospace w (hws w (by simp)).2
  | w :: w' :: rest =>
    rw [joinWords]
    rw [containsDoubleSpace_append_nospace _ _ (hws w (by simp)).2]
    have hJrest : ∀ x ∈ w' :: rest, x ≠ [] ∧ ∀ c ∈ x, isPySpace c = false :=
      fun x hx => hws x (List.mem_cons_of_mem _ hx)
    cases hJ : joinWords (w' :: rest) with
    | nil => rfl
    | cons y r =>
      have hy : isPySpace y = false := by
        have := joinWords_noLead (w' :: rest) hJrest
        rw [hJ] at this
        exact this
      rw [containsDoubleSpace]
      rw [not_space_char y hy]
      simp only [Bool.and_false, Bool.false_or]
      have := containsDoubleSpace_join (w' :: rest) hJrest
      rw [hJ] at this
      exact this

theorem splitWsAux_word :
    ∀ (w rest acc : List Char), (∀ c ∈ w, isPySpace c = false) →
      splitWsAux (w ++ rest) acc = splitWsAux rest (w.reverse ++ acc) := by
  intro w
  induction w with
  | nil => intro rest acc _; simp
  | cons c w' ih =>
    intro rest acc hw
    rw [List.cons_append, splitWsAux, if_neg (by simp [hw c (by simp)])]
    rw [ih rest (c :: acc) (fun x hx => hw x (List.mem_cons_of_mem _ hx))]
    simp [List.append_assoc]

theorem splitWs_join (ws : List (List Char))
    (hws : ∀ w ∈ ws, w ≠ [] ∧ ∀ c ∈ w, isPySpace c = false) :
    splitWs (joinWords ws) = ws := by
  match ws with
  | [] => rfl
  | [w] =>
    rw [joinWords, splitWs]
    have := splitWsAux_word w [] [] (hws w (by simp)).2
    rw [List.append_nil, List.append_nil] at this
    rw [this, splitWsAux, if_neg (by simpa [List.isEmpty_iff] using
      (by simpa using (hws w (by simp)).1 : w.reverse ≠ []))]
    simp
  | w :: w' :: rest =>
    rw [joinWords, splitWs]
    have hstep := splitWsAux_word w (' ' :: joinWords (w' :: rest)) []
      (hws w (by simp)).2
    rw [List.append_nil] at hstep
    rw [hstep, splitWsAux, if_pos (by simp [isPySpace]),
      if_neg (by simpa [List.isEmpty_iff] using
        (by simpa using (hws w (by simp)).1 : w.reverse ≠ []))]
    rw [List.reverse_reverse]
    have := splitWs_join (w' :: rest) (fun x hx => hws x (List.mem_cons_of_mem _ hx))
    rw [splitWs] at this
    rw [this]

theorem dropWhile_eq_self_of_noLead (l : List Char) (h : hasLeadingWs l = false) :
    l.dropWhile isPySpace = l := by
  cases l with
  | nil => rfl
  | cons c t =>
    rw [List.dropWhile_cons, if_neg (by simp [show isPySpace c = false from h])]

theorem pyStripL_eq_self (l : List Char) (hL : hasLeadingWs l = false)
    (hT : hasTrailingWs l = false) : pyStripL l = l := by
  unfold pyStripL
  rw [dropWhile_eq_self_of_noLead l hL, dropWhile_eq_self_of_noLead l.reverse hT,
    List.reverse_reverse]

theorem collapseLoop_noop (l : List Char) (h : containsDoubleSpace l = false) :
    ∀ fuel, collapseLoop fuel l = l := by
  intro fuel
  cases fuel with
  | zero => rfl
  | succ n => rw [collapseLoop, if_neg (by simp [h])]

theorem collapseSpaces_noop (l : List Char) (h : containsDoubleSpace l = false) :
    collapseSpaces l = l :=
  collapseLoop_noop l h l.length

theorem removeDelimsAux_noop (o c : Char) :
    ∀ (l : List Char), o ∉ l → ∀ fuel, removeDelimsAux o c fuel l = l := by
  intro l
  induction l with
  | nil =>
    intro _ fuel
    cases fuel with
    | zero => rfl
    | succ n => rfl
  | cons x rest ih =>
    intro h fuel
    cases fuel with
    | zero => rfl
    | succ n =>
      rw [removeDelimsAux,
        if_neg (fun hx => h (by rw [← hx]; exact List.mem_cons_self x rest))]
      rw [ih (fun hm => h (List.mem_cons_of_mem _ hm)) n]

theorem removeDelims_noop (o c : Char) (l : List Char) (h : o ∉ l) :
    removeDelims o c l = l :=
  removeDelimsAux_noop o c l h l.length

/-- The composite after the join step: what `cleanTranscriptTextL` strips. -/
theorem cleanTranscriptTextL_eq (l : List Char) :
    cleanTranscriptTextL l
      = joinWords (splitWs (removeDelims '(' ')'
          (removeDelims '[' ']' (collapseSpaces l)))) := by
  unfold cleanTranscriptTextL
  have hgood := splitWsAux_good
    (removeDelims '(' ')' (removeDelims '[' ']' (collapseSpaces l))) [] (by simp)
  exact pyStripL_eq_self _ (joinWords_noLead _ hgood) (joinWords_noTrail _ hgood)

/-- C10 counterexample: `_clean_transcript_text` is not idempotent.  In
`"[a\nb] hello"` the bracket pair spans a newline, so the lazy `[...]`
deletion does not fire on the first pass; that pass joins the words with
single spaces, after which a second pass deletes `[a b]`. -/
theorem claim_C10_counterexample :
    cleanTranscriptText (cleanTranscriptText "[a\nb] hello")
      ≠ cleanTranscriptText "[a\nb] hello" := by
  decide

/-- C10 (amended): the output of `_clean_transcript_text` never contains two
consecutive spaces and has no leading or trailing whitespace; applying the
function twice equals applying it once whenever the first pass's output
contains no `[` and no `(` — full idempotence fails (see the
counterexample). -/
theorem claim_C10_clean_text (s : String) :
    containsDoubleSpace (cleanTranscriptText s).data = false
    ∧ hasLeadingWs (cleanTranscriptText s).data = false
    ∧ hasTrailingWs (cleanTranscriptText s).data = false
    ∧ (('[' ∉ (cleanTranscriptText s).data ∧ '(' ∉ (cleanTranscriptText s).data) →
        cleanTranscriptText (cleanTranscriptText s) = cleanTranscriptText s) := by
  have hdata : (cleanTranscriptText s).data = cleanTranscriptTextL s.data := rfl
  have hgood := splitWsAux_good
    (removeDelims '(' ')' (removeDelims '[' ']' (collapseSpaces s.data))) [] (by simp)
  have heq := cleanTranscriptTextL_eq s.data
  refine ⟨?_, ?_, ?_, ?_⟩
  · rw [hdata, heq]
    exact containsDoubleSpace_join _ hgood
  · rw [hdata, heq]
    exact joinWords_noLead _ hgood
  · rw [hdata, heq]
    exact joinWords_noTrail _ hgood
  · intro ⟨hbr, hpa⟩
    have hcd : containsDoubleSpace (cleanTranscriptTextL s.data) = false := by
      rw [heq]; exact containsDoubleSpace_join _ hgood
    have hL : hasLeadingWs (cleanTranscriptTextL s.data) = false := by
      rw [heq]; exact joinWords_noLead _ hgood
    have hT : hasTrailingWs (cleanTranscriptTextL s.data) = false := by
      rw [heq]; exact joinWords_noTrail _ hgood
    rw [hdata] at hbr hpa
    have hsplit : splitWs (cleanTranscriptTextL s.data)
        = splitWs (removeDelims '(' ')' (removeDelims '[' ']' (collapseSpaces s.data))) := by
      rw [heq]
      exact splitWs_join _ hgood
    have key : cleanTranscriptTextL (cleanTranscriptTextL s.data)
        = cleanTranscriptTextL s.data :=
      calc cleanTranscriptTextL (cleanTranscriptTextL s.data)
          = pyStripL (joinWords (splitWs (removeDelims '(' ')' (removeDelims '[' ']'
              (collapseSpaces (cleanTranscriptTextL s.data)))))) := rfl
        _ = pyStripL (joinWords (splitWs (cleanTranscriptTextL s.data))) := by
              rw [collapseSpaces_noop _ hcd, removeDelims_noop '[' ']' _ hbr,
                removeDelims_noop '(' ')' _ hpa]
        _ = pyStripL (cleanTranscriptTextL s.data) := by rw [hsplit, ← heq]
        _ = cleanTranscriptTextL s.data := pyStripL_eq_self _ hL hT
    show String.mk (cleanTranscriptTextL (cleanTranscriptText s).data) = cleanTranscriptText s
    rw [hdata, key]
    rfl

theorem claim_C10_clean_text_witness :
    cleanTranscriptText (cleanTranscriptText "  hello   world ")
      = cleanTranscriptText "  hello   world " :=
  (claim_C10_clean_text "  hello   world ").2.2.2 (by decide)

theorem claim_C9_select_best_witness :
    selectBestSubtitle
        [⟨"u1", "zh", "Chinese auto", true⟩, ⟨"u2", "en", "English auto", true⟩]
      = some ⟨"u2", "en", "English auto", true⟩ :=
  (claim_C9_select_best
      [⟨"u1", "zh", "Chinese auto", true⟩, ⟨"u2", "en", "English auto", true⟩]).2.2.2.1
    (by decide) ⟨"u2", "en", "English auto", true⟩ (by decide)

end YTMon
